import Mathlib

/-!
Formal model of the Respondr document processor
(src/lambda/lambda_function.py): the metadata-inference engine that turns
OCR-extracted text into typed metadata fields, plus the Textract polling
loop and the per-document processing pipeline.

Texts and keys are modelled as lists of characters.  Python regular
expressions used by the source are simple enough to be represented as
sequences of elements: case-sensitive or case-insensitive literals,
bounded or unbounded greedy repetitions of a character class, and the
zero-width word-boundary assertion.  A total backtracking matcher over
such element sequences implements the semantics of re.search and
re.findall for these patterns: leftmost start position wins, and at a
given start position greedier alternatives are preferred (candidate
repetition counts are tried in descending order).
-/

namespace Respondr

abbrev Str := List Char

/-! Character classes used by the patterns in the source. -/

def isDigitC (c : Char) : Bool := 48 ≤ c.toNat && c.toNat ≤ 57

def isUpperC (c : Char) : Bool := 65 ≤ c.toNat && c.toNat ≤ 90

def isLowerC (c : Char) : Bool := 97 ≤ c.toNat && c.toNat ≤ 122

def isAlphaC (c : Char) : Bool := isUpperC c || isLowerC c

/-- word character for the word-boundary assertion: letters, digits, underscore. -/
def isWordC (c : Char) : Bool := isAlphaC c || isDigitC c || c = '_'

/-- whitespace characters recognised by backslash-s: space, tab, newline,
carriage return, vertical tab, form feed. -/
def isSpaceC (c : Char) : Bool :=
  c = ' ' || c = Char.ofNat 9 || c = Char.ofNat 10 || c = Char.ofNat 13 ||
  c = Char.ofNat 11 || c = Char.ofNat 12

def isDotC (c : Char) : Bool := c = '.'

def isDashDotC (c : Char) : Bool := c = '-' || c = '.'

def isSlashDashC (c : Char) : Bool := c = '/' || c = '-'

/-- class of the facility pattern: uppercase letters or digits, which under
re.IGNORECASE also admits lowercase letters. -/
def isAlnumCIC (c : Char) : Bool := isAlphaC c || isDigitC c

/-- class of the local part of the email pattern. -/
def isEmailLocalC (c : Char) : Bool :=
  isAlphaC c || isDigitC c || c = '.' || c = '_' || c = '%' || c = '+' || c = '-'

/-- class of the domain part of the email pattern. -/
def isEmailDomC (c : Char) : Bool := isAlphaC c || isDigitC c || c = '.' || c = '-'

/-- class of the final label of the email pattern: the source writes the
character class as uppercase range, bar, lowercase range, so the bar
character itself is a member. -/
def isTldC (c : Char) : Bool := isUpperC c || isLowerC c || c = '|'

/-! Pattern elements and the backtracking matcher. -/

/-- one element of a compiled pattern: a literal (with a case-insensitivity
flag), a greedy repetition of a character class with a lower bound and an
optional upper bound, or the zero-width word-boundary assertion. -/
inductive RElem where
  | lit (s : Str) (ci : Bool)
  | cls (p : Char → Bool) (lo : Nat) (hi : Option Nat)
  | wb

def optIsWord : Option Char → Bool
  | Option.none => false
  | some c => isWordC c

/-- word boundary between the previous character (none at the start of the
haystack) and the next character (none at the end). -/
def isBoundaryAt (prev next : Option Char) : Bool :=
  optIsWord prev != optIsWord next

/-- does the literal s occur at the head of cs, char for char, folding case
when ci is set. -/
def litTake : Str → Bool → Str → Bool
  | [], _, _ => true
  | _ :: _, _, [] => false
  | p :: ps, ci, c :: cs =>
    (if ci then Char.toLower p == Char.toLower c else p == c) && litTake ps ci cs

/-- length of the maximal prefix of cs whose characters satisfy p. -/
def maxRun (p : Char → Bool) : Str → Nat
  | [] => 0
  | c :: cs => if p c then maxRun p cs + 1 else 0

/-- descending list hi, hi-1, ..., lo (empty when hi < lo): the order in
which a greedy repetition tries candidate lengths. -/
def descRange (hi lo : Nat) : List Nat :=
  (List.range (hi + 1 - lo)).map (fun i => hi - i)

/-- previous-character context after consuming k characters of cs. -/
def advPrev (prev : Option Char) (k : Nat) (cs : Str) : Option Char :=
  if k = 0 then prev else (cs.take k).getLast?

/-- try to match a whole element sequence at the current position,
backtracking over repetition lengths; used for the part of a pattern after
the capture group, and for searches that need no capture. -/
def matchTail : List RElem → Option Char → Str → Bool
  | [], _, _ => true
  | RElem.wb :: es, prev, cs =>
    isBoundaryAt prev cs.head? && matchTail es prev cs
  | RElem.lit s ci :: es, prev, cs =>
    litTake s ci cs && matchTail es (advPrev prev s.length cs) (cs.drop s.length)
  | RElem.cls p lo hi :: es, prev, cs =>
    let m := maxRun p cs
    let upper := match hi with | Option.none => m | some h => min h m
    (descRange upper lo).any (fun k => matchTail es (advPrev prev k cs) (cs.drop k))

/-- match the capture-group part of a pattern followed by the part after
the group; on success return how many characters the group consumed. -/
def matchGrp : List RElem → List RElem → Option Char → Str → Option Nat
  | [], post, prev, cs => if matchTail post prev cs then some 0 else Option.none
  | RElem.wb :: gs, post, prev, cs =>
    if isBoundaryAt prev cs.head? then matchGrp gs post prev cs else Option.none
  | RElem.lit s ci :: gs, post, prev, cs =>
    if litTake s ci cs then
      (matchGrp gs post (advPrev prev s.length cs) (cs.drop s.length)).map
        (fun n => n + s.length)
    else Option.none
  | RElem.cls p lo hi :: gs, post, prev, cs =>
    let m := maxRun p cs
    let upper := match hi with | Option.none => m | some h => min h m
    (descRange upper lo).findSome? (fun k =>
      (matchGrp gs post (advPrev prev k cs) (cs.drop k)).map (fun n => n + k))

/-- match the part of a pattern before the capture group, then the group
and the rest; on success return the characters captured by the group. -/
def matchPre : List RElem → List RElem → List RElem → Option Char → Str → Option Str
  | [], grp, post, prev, cs => (matchGrp grp post prev cs).map (fun n => cs.take n)
  | RElem.wb :: ps, grp, post, prev, cs =>
    if isBoundaryAt prev cs.head? then matchPre ps grp post prev cs else Option.none
  | RElem.lit s ci :: ps, grp, post, prev, cs =>
    if litTake s ci cs then
      matchPre ps grp post (advPrev prev s.length cs) (cs.drop s.length)
    else Option.none
  | RElem.cls p lo hi :: ps, grp, post, prev, cs =>
    let m := maxRun p cs
    let upper := match hi with | Option.none => m | some h => min h m
    (descRange upper lo).findSome? (fun k =>
      matchPre ps grp post (advPrev prev k cs) (cs.drop k))

/-- a pattern with exactly one capture group: the elements before the
group, the group itself, and the elements after it. -/
structure RPat where
  pre : List RElem
  grp : List RElem
  post : List RElem

/-- re.search with a capture group: scan start positions left to right and
return the first capture found. -/
def researchAux (pat : RPat) : Option Char → Str → Option Str
  | prev, [] => matchPre pat.pre pat.grp pat.post prev []
  | prev, c :: rest =>
    match matchPre pat.pre pat.grp pat.post prev (c :: rest) with
    | some cap => some cap
    | Option.none => researchAux pat (some c) rest

def research (pat : RPat) (text : Str) : Option Str :=
  researchAux pat Option.none text

/-- re.search as a boolean: scan start positions left to right. -/
def searchTailB (es : List RElem) : Option Char → Str → Bool
  | prev, [] => matchTail es prev []
  | prev, c :: rest =>
    matchTail es prev (c :: rest) || searchTailB es (some c) rest

def researchB (es : List RElem) (text : Str) : Bool :=
  searchTailB es Option.none text

/-- re.findall for a pattern that is a single capture group: collect
non-overlapping matches left to right, resuming after each match.  The
fuel argument bounds the scan by the haystack length; every iteration
either consumes the match or advances one character.  (A zero-width match
is skipped with a one-character advance; the facility patterns always
consume at least one character, so that branch is unreachable for them.) -/
def findallAux (grp : List RElem) : Option Char → Str → Nat → List Str
  | _, _, 0 => []
  | prev, cs, Nat.succ fuel =>
    match matchGrp grp [] prev cs with
    | some n =>
      if n = 0 then
        match cs with
        | [] => []
        | c :: rest => findallAux grp (some c) rest fuel
      else (cs.take n) :: findallAux grp ((cs.take n).getLast?) (cs.drop n) fuel
    | Option.none =>
      match cs with
      | [] => []
      | c :: rest => findallAux grp (some c) rest fuel

def findall (grp : List RElem) (text : Str) : List Str :=
  findallAux grp Option.none text (text.length + 1)

/-! Substring membership, modelling the Python in operator on strings. -/

/-- is n a prefix of h. -/
def litStarts : Str → Str → Bool
  | [], _ => true
  | _ :: _, [] => false
  | a :: ns, b :: hs => a == b && litStarts ns hs

/-- is n a substring of h (the Python in operator on strings). -/
def subIn (n : Str) : Str → Bool
  | [] => litStarts n []
  | c :: rest => litStarts n (c :: rest) || subIn n rest

/-! Keyword taxonomies from the source, in their definition order.
Python dicts preserve insertion order, so the tables are association
lists. -/

def DOCTYPE_KEYWORDS : List (Str × List Str) :=
  [("emergency_plan".toList,
    ["emergency".toList, "evacuation".toList, "response plan".toList,
     "continuity".toList, "disaster".toList]),
   ("sop".toList,
    ["standard operating procedure".toList, "sop".toList, "procedure".toList,
     "protocol".toList, "process".toList]),
   ("policy".toList,
    ["policy".toList, "policies".toList, "regulation".toList,
     "compliance".toList, "guideline".toList]),
   ("incident_report".toList,
    ["incident report".toList, "incident".toList, "accident report".toList,
     "injury report".toList]),
   ("training".toList,
    ["training".toList, "course".toList, "workshop".toList,
     "certification".toList, "instruction".toList])]

def ROLE_KEYWORDS : List (Str × List Str) :=
  [("security".toList,
    ["security".toList, "guard".toList, "officer".toList, "protection".toList]),
   ("ehs".toList,
    ["ehs".toList, "environment".toList, "health".toList, "safety".toList,
     "environmental health".toList]),
   ("facilities".toList,
    ["facilities".toList, "maintenance".toList, "building".toList,
     "grounds".toList]),
   ("hr".toList,
    ["human resources".toList, "hr".toList, "personnel".toList,
     "employee relations".toList]),
   ("medical".toList,
    ["medical".toList, "nurse".toList, "physician".toList,
     "healthcare".toList, "first aid".toList])]

def HAZARD_KEYWORDS : List (Str × List Str) :=
  [("fire".toList,
    ["fire".toList, "smoke".toList, "flame".toList, "burn".toList,
     "combustion".toList]),
   ("chemical".toList,
    ["chemical".toList, "hazmat".toList, "spill".toList, "toxic".toList,
     "corrosive".toList]),
   ("active_shooter".toList,
    ["active shooter".toList, "armed intruder".toList, "gunman".toList,
     "shooter".toList]),
   ("flood".toList,
    ["flood".toList, "water damage".toList, "inundation".toList,
     "flooding".toList]),
   ("medical_emergency".toList,
    ["medical emergency".toList, "cardiac".toList, "stroke".toList,
     "injury".toList, "trauma".toList])]

def US_STATES : List Str :=
  ["AL".toList, "AK".toList, "AZ".toList, "AR".toList, "CA".toList,
   "CO".toList, "CT".toList, "DE".toList, "FL".toList, "GA".toList,
   "HI".toList, "ID".toList, "IL".toList, "IN".toList, "IA".toList,
   "KS".toList, "KY".toList, "LA".toList, "ME".toList, "MD".toList,
   "MA".toList, "MI".toList, "MN".toList, "MS".toList, "MO".toList,
   "MT".toList, "NE".toList, "NV".toList, "NH".toList, "NJ".toList,
   "NM".toList, "NY".toList, "NC".toList, "ND".toList, "OH".toList,
   "OK".toList, "OR".toList, "PA".toList, "RI".toList, "SC".toList,
   "SD".toList, "TN".toList, "TX".toList, "UT".toList, "VT".toList,
   "VA".toList, "WA".toList, "WV".toList, "WI".toList, "WY".toList]

/-! Document-type classifier (detect_doctype in the source). -/

/-- score of one category: how many of its keywords occur as substrings of
the text, each contributing at most 1 (sum of 1 for keyword in keywords if
keyword in text). -/
def doctypeScore (text : Str) (kws : List Str) : Nat :=
  (kws.filter (fun k => subIn k text)).length

/-- one step of the Python max builtin with a key function: the running
best is replaced only when the candidate value is strictly greater, so the
first element attaining the maximum wins. -/
def pyMaxStep (b y : Str × Nat) : Str × Nat :=
  if y.2 > b.2 then y else b

/-- detect_doctype generalized over the keyword table so the argmax
behaviour can be proved for any table; the source uses DOCTYPE_KEYWORDS. -/
def detectDoctypeGen (table : List (Str × List Str)) (text : Str) : Str :=
  match table.map (fun dk => (dk.1, doctypeScore text dk.2)) with
  | [] => "unknown".toList
  | x :: xs =>
    if (xs.foldl pyMaxStep x).2 > 0 then (xs.foldl pyMaxStep x).1
    else "unknown".toList

def detect_doctype (text : Str) : Str :=
  detectDoctypeGen DOCTYPE_KEYWORDS text

/-- maximum score in a score list (0 for the empty list). -/
def maxScoreOf (scores : List (Str × Nat)) : Nat :=
  (scores.map (fun z => z.2)).foldr max 0

/-- specification rendering of the claim for comparison with the source
translation: the first category in enumeration order attaining the maximum
score when that maximum is positive, unknown otherwise. -/
def doctypeSpecFirstMax (table : List (Str × List Str)) (text : Str) : Str :=
  let scores := table.map (fun dk => (dk.1, doctypeScore text dk.2))
  if maxScoreOf scores > 0 then
    match scores.find? (fun y => y.2 == maxScoreOf scores) with
    | some y => y.1
    | Option.none => "unknown".toList
  else "unknown".toList

/-! Role and hazard detection (detect_keywords in the source). -/

/-- categories whose keyword list has at least one substring hit in the
text, in table order. -/
def detect_keywords (text : Str) : List (Str × List Str) → List Str
  | [] => []
  | ck :: rest =>
    if ck.2.any (fun k => subIn k text) then ck.1 :: detect_keywords text rest
    else detect_keywords text rest

/-! Pattern extractors: version, date, author, facility, jurisdiction. -/

/-- digits, dot, digits: the capture group shared by the version patterns. -/
def digitsDotDigits : List RElem :=
  [RElem.cls isDigitC 1 Option.none, RElem.lit (".".toList) false,
   RElem.cls isDigitC 1 Option.none]

def versionPat1 : RPat :=
  ⟨[RElem.lit ("version".toList) true, RElem.cls isSpaceC 1 Option.none],
   digitsDotDigits, []⟩

def versionPat2 : RPat :=
  ⟨[RElem.lit ("v".toList) true], digitsDotDigits, []⟩

def versionPat3 : RPat :=
  ⟨[RElem.lit ("rev".toList) true, RElem.cls isDotC 0 (some 1),
    RElem.cls isSpaceC 1 Option.none],
   digitsDotDigits, []⟩

def versionPatterns : List RPat := [versionPat1, versionPat2, versionPat3]

/-- one or two digits, slash or dash, one or two digits, slash or dash,
two to four digits: the capture group shared by the date patterns. -/
def dateGroup : List RElem :=
  [RElem.cls isDigitC 1 (some 2), RElem.cls isSlashDashC 1 (some 1),
   RElem.cls isDigitC 1 (some 2), RElem.cls isSlashDashC 1 (some 1),
   RElem.cls isDigitC 2 (some 4)]

def datePat1 : RPat :=
  ⟨[RElem.lit ("effective".toList) true, RElem.cls isSpaceC 1 Option.none,
    RElem.lit ("date:".toList) true, RElem.cls isSpaceC 0 Option.none],
   dateGroup, []⟩

def datePat2 : RPat :=
  ⟨[RElem.lit ("effective:".toList) true, RElem.cls isSpaceC 0 Option.none],
   dateGroup, []⟩

def datePat3 : RPat :=
  ⟨[RElem.lit ("date:".toList) true, RElem.cls isSpaceC 0 Option.none],
   dateGroup, []⟩

def datePatterns : List RPat := [datePat1, datePat2, datePat3]

/-- capitalized word, whitespace, capitalized word: the capture group
shared by the author patterns (case-sensitive). -/
def nameGroup : List RElem :=
  [RElem.cls isUpperC 1 (some 1), RElem.cls isLowerC 1 Option.none,
   RElem.cls isSpaceC 1 Option.none,
   RElem.cls isUpperC 1 (some 1), RElem.cls isLowerC 1 Option.none]

def authorPat1 : RPat :=
  ⟨[RElem.lit ("author:".toList) false, RElem.cls isSpaceC 0 Option.none],
   nameGroup, []⟩

def authorPat2 : RPat :=
  ⟨[RElem.lit ("prepared".toList) false, RElem.cls isSpaceC 1 Option.none,
    RElem.lit ("by:".toList) false, RElem.cls isSpaceC 0 Option.none],
   nameGroup, []⟩

def authorPat3 : RPat :=
  ⟨[RElem.lit ("written".toList) false, RElem.cls isSpaceC 1 Option.none,
    RElem.lit ("by:".toList) false, RElem.cls isSpaceC 0 Option.none],
   nameGroup, []⟩

def authorPatterns : List RPat := [authorPat1, authorPat2, authorPat3]

/-- a pattern whose parts are all empty; used only as the out-of-range
default for list indexing in theorem statements. -/
def emptyPat : RPat := ⟨[], [], []⟩

/-- the shared first-match loop of extract_version, extract_date and
extract_author: try the patterns in order, return the capture of the
first that matches, absent when none does. -/
def firstCapture : List RPat → Str → Option Str
  | [], _ => Option.none
  | p :: ps, text =>
    match research p text with
    | some c => some c
    | Option.none => firstCapture ps text

def extract_version (text : Str) : Option Str :=
  firstCapture versionPatterns text

def extract_date (text : Str) : Option Str :=
  firstCapture datePatterns text

def extract_author (text : Str) : Option Str :=
  firstCapture authorPatterns text

/-! Facility extraction (extract_facility in the source). -/

/-- Building, whitespace, run of letters or digits (whole pattern under
re.IGNORECASE; the class admits lowercase letters under that flag). -/
def bldgGrp : List RElem :=
  [RElem.lit ("Building".toList) true, RElem.cls isSpaceC 1 Option.none,
   RElem.cls isAlnumCIC 1 Option.none]

def roomGrp : List RElem :=
  [RElem.lit ("Room".toList) true, RElem.cls isSpaceC 1 Option.none,
   RElem.cls isDigitC 1 Option.none]

def floorGrp : List RElem :=
  [RElem.lit ("Floor".toList) true, RElem.cls isSpaceC 1 Option.none,
   RElem.cls isDigitC 1 Option.none]

/-- the facilities list of the source: findall results of the three
patterns, in pattern order. -/
def facilityMatches (text : Str) : List Str :=
  findall bldgGrp text ++ findall roomGrp text ++ findall floorGrp text

/-- extract_facility: when any match exists, the source joins
set(facilities take 3) into one string.  CPython set iteration order is
unspecified, so the set is modelled as the deduplicated list of the first
three matches; the claims about it are stated through membership and
cardinality, which do not depend on iteration order. -/
def extract_facility (text : Str) : Option (List Str) :=
  let facilities := facilityMatches text
  if facilities.isEmpty then Option.none
  else some ((facilities.take 3).dedup)

/-! Jurisdiction detection (detect_jurisdiction in the source). -/

/-- word boundary, the state code verbatim (case-sensitive), word
boundary. -/
def statePat (st : Str) : List RElem :=
  [RElem.wb, RElem.lit st false, RElem.wb]

/-- first state code in list order that occurs as a whole word in the raw
text. -/
def detect_jurisdiction (text : Str) : Option Str :=
  US_STATES.find? (fun st => researchB (statePat st) text)

/-! Organization id from the object key (extract_org_id_from_path). -/

/-- Python split on the slash character: always returns at least one
part, empty parts included. -/
def splitOnSlash : Str → List Str
  | [] => [[]]
  | c :: cs =>
    if c = '/' then [] :: splitOnSlash cs
    else
      match splitOnSlash cs with
      | [] => [[c]]
      | p :: ps => (c :: p) :: ps

/-- first path segment when the key has a separator, default_org
otherwise (parts index 0 is modelled by headD, the list being provably
nonempty). -/
def extract_org_id_from_path (key : Str) : Str :=
  let parts := splitOnSlash key
  if parts.length > 1 then parts.headD [] else "default_org".toList

/-! OCR coverage (calculate_ocr_coverage in the source).  Python float
arithmetic is modelled with exact rationals; the rounding helper rounds
half away from zero instead of to even, which the claims never exercise
since none of their values sit on a rounding tie. -/

/-- helper of the whitespace split: the accumulator holds the reversed
current word. -/
def splitWsAux : Str → Str → List Str
  | [], acc => if acc.isEmpty then [] else [acc.reverse]
  | c :: cs, acc =>
    if isSpaceC c then
      if acc.isEmpty then splitWsAux cs [] else acc.reverse :: splitWsAux cs []
    else splitWsAux cs (c :: acc)

/-- Python split with no separator: maximal runs of non-whitespace,
leading and trailing whitespace ignored. -/
def pySplitWs (cs : Str) : List Str := splitWsAux cs []

/-- round to two decimal places. -/
def round2 (q : ℚ) : ℚ := ((round (q * 100) : ℤ) : ℚ) / 100

def calculate_ocr_coverage (text : Str) (page_count : Nat) : ℚ :=
  if page_count = 0 then 0
  else
    round2 (min (100 : ℚ)
      ((((pySplitWs text).length : ℚ) / ((page_count * 300 : Nat) : ℚ)) * 100))

/-! PII detection (detect_pii in the source), on raw text. -/

/-- word boundary, three digits, optional dash or dot, three digits,
optional dash or dot, four digits, word boundary. -/
def phonePat : List RElem :=
  [RElem.wb, RElem.cls isDigitC 3 (some 3), RElem.cls isDashDotC 0 (some 1),
   RElem.cls isDigitC 3 (some 3), RElem.cls isDashDotC 0 (some 1),
   RElem.cls isDigitC 4 (some 4), RElem.wb]

/-- word boundary, local part, at sign, domain part, dot, final label of
length at least two, word boundary. -/
def emailPat : List RElem :=
  [RElem.wb, RElem.cls isEmailLocalC 1 Option.none,
   RElem.lit ("@".toList) false, RElem.cls isEmailDomC 1 Option.none,
   RElem.lit (".".toList) false, RElem.cls isTldC 2 Option.none, RElem.wb]

/-- word boundary, three digits, dash, two digits, dash, four digits,
word boundary. -/
def ssnPat : List RElem :=
  [RElem.wb, RElem.cls isDigitC 3 (some 3), RElem.lit ("-".toList) false,
   RElem.cls isDigitC 2 (some 2), RElem.lit ("-".toList) false,
   RElem.cls isDigitC 4 (some 4), RElem.wb]

def PII_PATTERNS : List (List RElem) := [phonePat, emailPat, ssnPat]

/-- true as soon as any pattern family matches (the source loop returns
True on the first hit). -/
def detect_pii (text : Str) : Bool :=
  PII_PATTERNS.any (fun p => researchB p text)

/-! Parsed-metadata dictionary (parse_metadata in the source).  Python
dictionary values are strings, lists of strings, or None; the dictionary
itself is an association list in insertion order, and the get method with
a default is modelled by dictGet. -/

inductive PyVal where
  | none
  | str (s : Str)
  | list (xs : List Str)
deriving DecidableEq

/-- wrap an optional string the way the source stores extractor results. -/
def optStr : Option Str → PyVal
  | Option.none => PyVal.none
  | some s => PyVal.str s

/-- wrap the facility result (a set of strings or None). -/
def optList : Option (List Str) → PyVal
  | Option.none => PyVal.none
  | some xs => PyVal.list xs

/-- Python dict.get with a default: the default is used only when the key
is absent, never when the key maps to None. -/
def dictGet : List (Str × PyVal) → Str → PyVal → PyVal
  | [], _, dflt => dflt
  | kv :: rest, k, dflt => if kv.1 = k then kv.2 else dictGet rest k dflt

/-- membership of a string in a list-valued entry. -/
def pvListHas (v : PyVal) (s : Str) : Bool :=
  match v with
  | PyVal.list xs => xs.contains s
  | _ => false

/-- parse_metadata: lower-cases the text for the keyword-based detectors,
runs every extractor on the raw text, and returns the dictionary with all
nine keys always present. -/
def parse_metadata (text key : Str) : List (Str × PyVal) :=
  let text_lower := text.map Char.toLower
  [("org_id".toList, PyVal.str (extract_org_id_from_path key)),
   ("doctype".toList, PyVal.str (detect_doctype text_lower)),
   ("roles_involved".toList, PyVal.list (detect_keywords text_lower ROLE_KEYWORDS)),
   ("hazard_types".toList, PyVal.list (detect_keywords text_lower HAZARD_KEYWORDS)),
   ("version".toList, optStr (extract_version text)),
   ("effective_date".toList, optStr (extract_date text)),
   ("author".toList, optStr (extract_author text)),
   ("facility".toList, optList (extract_facility text)),
   ("jurisdiction".toList, optStr (detect_jurisdiction text))]

/-! Complete metadata record (the dictionary assembled in
process_document).  Provenance values produced by external collaborators
(the generated uuid, the processing timestamp, the source bucket) are
plumbing and are not part of any claim; the docId comes from the
environment below where it is needed for the text write. -/

structure DocRecord where
  org_id : PyVal
  version : PyVal
  effective_date : PyVal
  author : PyVal
  pages : Nat
  file_size : Nat
  mime_type : Str
  checksum : Str
  ocr_coverage_pct : ℚ
  doctype : PyVal
  roles_involved : PyVal
  hazard_types : PyVal
  facility : PyVal
  jurisdiction : PyVal
  classification : Str
  pii_present : Bool
  text_preview : Str

/-- the complete_metadata dictionary built in process_document, field for
field: bracket indexing on always-present keys is modelled by dictGet
with a None default, and the get calls keep their literal defaults from
the source. -/
def completeMetadata (text key checksum : Str) (page_count file_size : Nat) :
    DocRecord :=
  let parsed := parse_metadata text key
  ⟨dictGet parsed ("org_id".toList) PyVal.none,
   dictGet parsed ("version".toList) (PyVal.str ("1.0".toList)),
   dictGet parsed ("effective_date".toList) PyVal.none,
   dictGet parsed ("author".toList) PyVal.none,
   page_count,
   file_size,
   "application/pdf".toList,
   checksum,
   calculate_ocr_coverage text page_count,
   dictGet parsed ("doctype".toList) PyVal.none,
   dictGet parsed ("roles_involved".toList) PyVal.none,
   dictGet parsed ("hazard_types".toList) PyVal.none,
   dictGet parsed ("facility".toList) PyVal.none,
   dictGet parsed ("jurisdiction".toList) PyVal.none,
   "internal".toList,
   detect_pii text,
   text.take 500⟩

/-! Textract polling and the per-document pipeline (extract_text_from_pdf
and process_document in the source). -/

inductive JobStatus where
  | inProgress
  | succeeded
  | failed
deriving DecidableEq

/-- a Textract result block: a line of text, a page marker, or anything
else. -/
inductive TxBlock where
  | line (t : Str)
  | page
  | other

/-- the external collaborators of one document run: the job status
returned at each polling attempt, the result blocks on success
(pagination flattened into one list), and storage-provided metadata. -/
structure PipelineEnv where
  status : Nat → JobStatus
  blocks : List TxBlock
  fileSize : Nat
  checksum : Str
  docId : Str
  key : Str

/-- the polling loop: up to 60 attempts; break on SUCCEEDED, raise on
FAILED, raise a timeout once the attempt counter reaches the bound. -/
def pollTextract (status : Nat → JobStatus) (attempt : Nat) :
    Except Str Unit :=
  if _h : attempt < 60 then
    match status attempt with
    | JobStatus.succeeded => Except.ok ()
    | JobStatus.failed => Except.error ("Textract job failed".toList)
    | JobStatus.inProgress => pollTextract status (attempt + 1)
  else Except.error ("Textract job timeout".toList)
termination_by 60 - attempt
decreasing_by omega

/-- extract_text_from_pdf: poll the job from attempt 0; on success join
the LINE blocks with newlines and count the PAGE blocks. -/
def extract_text_from_pdf (env : PipelineEnv) : Except Str (Str × Nat) :=
  match pollTextract env.status 0 with
  | Except.error e => Except.error e
  | Except.ok _ =>
    let texts := env.blocks.filterMap
      (fun b => match b with | TxBlock.line t => some t | _ => Option.none)
    let pages := (env.blocks.filter
      (fun b => match b with | TxBlock.page => true | _ => false)).length
    Except.ok (List.intercalate ("\n".toList) texts, pages)

/-- an effect on the external stores: the DynamoDB record write or the
parsed-text object write.  (store_metadata_in_dynamodb only replaces
empty role and hazard lists by empty lists and converts the coverage
number to another representation, both identities in this model; the
destination key of the text write is string plumbing and is represented
by the document id.) -/
inductive WriteOp where
  | putDynamo (r : DocRecord)
  | putS3 (docId : Str) (body : Str)

/-- process_document: extract text, build the record, then perform the
two writes in order; a failing extraction propagates as the error and no
write happens.  The result is the list of writes performed and the error,
if any. -/
def process_document (env : PipelineEnv) : List WriteOp × Option Str :=
  match extract_text_from_pdf env with
  | Except.error e => ([], some e)
  | Except.ok tp =>
    let record := completeMetadata tp.1 env.key env.checksum tp.2 env.fileSize
    ([WriteOp.putDynamo record, WriteOp.putS3 env.docId tp.1], Option.none)

/-! Concrete fixture inputs used by the claims. -/

/-- the end-to-end scenario text of the specification. -/
def c2Text : Str :=
  ("This Standard Operating Procedure covers chemical spill response by the EHS team in Building A, Virginia. Contact: safety@acme.com. Version 2.1.").toList

/-- an arbitrary object key for the scenario (the claims about the
scenario do not involve the key). -/
def c2Key : Str := ("org1/doc.pdf").toList

/-- facility fixture with one building and one room. -/
def facilityFixture : Str := ("Evacuate Building A via Room 301").toList

/-- facility text with four distinct matched facilities of which the
first three occurrences contain a duplicate. -/
def facilityDupText : Str :=
  ("Building A Building A Building B Building C Building D").toList

/-- an environment whose job never leaves the in-progress state. -/
def envAllPending : PipelineEnv :=
  ⟨fun _ => JobStatus.inProgress, [], 0, [], [], []⟩

/-! Theorems. -/

/-! Helper lemmas for the document-type classifier. -/

theorem find?_cons_pos {α : Type} (p : α → Bool) (a : α) (l : List α)
    (h : p a = true) : (a :: l).find? p = some a := by
  simp [List.find?, h]

theorem find?_cons_neg {α : Type} (p : α → Bool) (a : α) (l : List α)
    (h : p a = false) : (a :: l).find? p = l.find? p := by
  simp [List.find?, h]

theorem maxScoreOf_cons (x : Str × Nat) (xs : List (Str × Nat)) :
    maxScoreOf (x :: xs) = max x.2 (maxScoreOf xs) := by
  simp [maxScoreOf]

theorem pyMaxStep_snd (b y : Str × Nat) : (pyMaxStep b y).2 = max b.2 y.2 := by
  simp only [pyMaxStep]
  split <;> omega

/-- the Python max builtin keeps the current best unless a candidate is
strictly greater, so the fold over the score list lands on the first
entry attaining the maximum value. -/
theorem pyMax_eq_first_max (xs : List (Str × Nat)) :
    ∀ x : Str × Nat,
      (x :: xs).find? (fun y => y.2 == maxScoreOf (x :: xs))
        = some (xs.foldl pyMaxStep x) := by
  induction xs with
  | nil =>
    intro x
    have hp : (fun y => y.2 == maxScoreOf [x]) x = true := by simp [maxScoreOf]
    rw [find?_cons_pos (fun y => y.2 == maxScoreOf [x]) x [] hp]
    rfl
  | cons y ys ih =>
    intro x
    have hM : maxScoreOf (pyMaxStep x y :: ys) = maxScoreOf (x :: y :: ys) := by
      rw [maxScoreOf_cons, maxScoreOf_cons, maxScoreOf_cons, pyMaxStep_snd]
      omega
    have key := ih (pyMaxStep x y)
    rw [hM] at key
    show (x :: y :: ys).find? (fun z => z.2 == maxScoreOf (x :: y :: ys))
        = some ((y :: ys).foldl pyMaxStep x)
    rw [List.foldl_cons, ← key]
    have hyM : y.2 ≤ maxScoreOf (x :: y :: ys) := by
      rw [maxScoreOf_cons, maxScoreOf_cons]; omega
    have hxM : x.2 ≤ maxScoreOf (x :: y :: ys) := by
      rw [maxScoreOf_cons]; omega
    by_cases hyx : y.2 > x.2
    · have hpx : (fun z => z.2 == maxScoreOf (x :: y :: ys)) x = false := by
        simp only [beq_eq_false_iff_ne]; omega
      rw [find?_cons_neg (fun z => z.2 == maxScoreOf (x :: y :: ys)) x
        (y :: ys) hpx]
      have hstep : pyMaxStep x y = y := by simp [pyMaxStep, hyx]
      rw [hstep]
    · have hstep : pyMaxStep x y = x := by
        simp only [pyMaxStep]
        rw [if_neg hyx]
      rw [hstep]
      by_cases hpx : x.2 = maxScoreOf (x :: y :: ys)
      · have h1 : (fun z => z.2 == maxScoreOf (x :: y :: ys)) x = true := by
          simp [hpx]
        rw [find?_cons_pos (fun z => z.2 == maxScoreOf (x :: y :: ys)) x
          (y :: ys) h1,
          find?_cons_pos (fun z => z.2 == maxScoreOf (x :: y :: ys)) x ys h1]
      · have h1 : (fun z => z.2 == maxScoreOf (x :: y :: ys)) x = false := by
          simp only [beq_eq_false_iff_ne]; omega
        have h2 : (fun z => z.2 == maxScoreOf (x :: y :: ys)) y = false := by
          simp only [beq_eq_false_iff_ne]; omega
        rw [find?_cons_neg (fun z => z.2 == maxScoreOf (x :: y :: ys)) x
          (y :: ys) h1,
          find?_cons_neg (fun z => z.2 == maxScoreOf (x :: y :: ys)) y ys h2,
          find?_cons_neg (fun z => z.2 == maxScoreOf (x :: y :: ys)) x ys h1]

/-- the source translation and the specification rendering of the
classifier agree for every keyword table. -/
theorem detectDoctypeGen_eq_spec (table : List (Str × List Str)) (text : Str) :
    detectDoctypeGen table text = doctypeSpecFirstMax table text := by
  simp only [detectDoctypeGen, doctypeSpecFirstMax]
  cases h : table.map (fun dk => (dk.1, doctypeScore text dk.2)) with
  | nil => simp [maxScoreOf]
  | cons x xs =>
    have key := pyMax_eq_first_max xs x
    have hval : (xs.foldl pyMaxStep x).2 = maxScoreOf (x :: xs) := by
      have := List.find?_some key
      simpa using this
    rw [key]
    simp only [hval]

/-- C1: detect_doctype scores each category by the number of its trigger
phrases occurring as substrings (each contributing at most 1), and
returns the first category in DOCTYPE_KEYWORDS order attaining the
maximum score when positive, unknown when the maximum is 0 — the source
translation equals the specification rendering. -/
theorem claim1_doctype_first_max (text : Str) :
    detect_doctype text = doctypeSpecFirstMax DOCTYPE_KEYWORDS text :=
  detectDoctypeGen_eq_spec DOCTYPE_KEYWORDS text

/-! Helper lemmas for substring monotonicity. -/

theorem litStarts_append (n t s : Str) (h : litStarts n t = true) :
    litStarts n (t ++ s) = true := by
  induction n generalizing t with
  | nil => simp [litStarts]
  | cons a ns ih =>
    cases t with
    | nil => simp [litStarts] at h
    | cons b ts =>
      simp only [litStarts, Bool.and_eq_true] at h
      simp only [List.cons_append, litStarts, Bool.and_eq_true]
      exact ⟨h.1, ih ts h.2⟩

theorem subIn_nil_left (h : Str) : subIn [] h = true := by
  cases h with
  | nil => rfl
  | cons c rest => simp [subIn, litStarts]

theorem subIn_append (n t s : Str) (h : subIn n t = true) :
    subIn n (t ++ s) = true := by
  induction t with
  | nil =>
    cases n with
    | nil => exact subIn_nil_left s
    | cons a ns => simp [subIn, litStarts] at h
  | cons c rest ih =>
    simp only [subIn, Bool.or_eq_true] at h
    simp only [List.cons_append, subIn, Bool.or_eq_true]
    rcases h with h | h
    · refine Or.inl ?_
      have := litStarts_append n (c :: rest) s h
      simpa using this
    · exact Or.inr (ih h)

/-- C7: keyword detection is monotone in the text: every category
detected in a text is still detected after any suffix is appended,
for every keyword table. -/
theorem claim7_keywords_monotone (kd : List (Str × List Str)) (t s c : Str)
    (h : c ∈ detect_keywords t kd) : c ∈ detect_keywords (t ++ s) kd := by
  induction kd with
  | nil => simp [detect_keywords] at h
  | cons ck rest ih =>
    by_cases hck : ck.2.any (fun k => subIn k t) = true
    · rw [detect_keywords, if_pos hck] at h
      have hck2 : ck.2.any (fun k => subIn k (t ++ s)) = true := by
        rcases List.any_eq_true.mp hck with ⟨k, hk, hin⟩
        exact List.any_eq_true.mpr ⟨k, hk, subIn_append k t s hin⟩
      rw [detect_keywords, if_pos hck2]
      rcases List.mem_cons.mp h with h | h
      · exact List.mem_cons.mpr (Or.inl h)
      · exact List.mem_cons.mpr (Or.inr (ih h))
    · rw [detect_keywords, if_neg hck] at h
      by_cases hck2 : ck.2.any (fun k => subIn k (t ++ s)) = true
      · rw [detect_keywords, if_pos hck2]
        exact List.mem_cons.mpr (Or.inr (ih h))
      · rw [detect_keywords, if_neg hck2]
        exact ih h

/-- C7 witness: the ehs role detected in a short text survives appending
a suffix. -/
theorem claim7_keywords_monotone_witness :
    ("ehs".toList) ∈ detect_keywords ((("the ehs team").toList) ++
      ((" responds").toList)) ROLE_KEYWORDS :=
  claim7_keywords_monotone ROLE_KEYWORDS (("the ehs team").toList)
    ((" responds").toList) ("ehs".toList) (by decide)

/-! Helper lemmas for the organization-id extraction. -/

theorem splitOnSlash_ne_nil (key : Str) : splitOnSlash key ≠ [] := by
  induction key with
  | nil => simp [splitOnSlash]
  | cons c cs ih =>
    simp only [splitOnSlash]
    split
    · simp
    · split <;> simp

theorem splitOnSlash_length (key : Str) :
    (splitOnSlash key).length > 1 ↔ '/' ∈ key := by
  induction key with
  | nil => simp [splitOnSlash]
  | cons c cs ih =>
    simp only [splitOnSlash]
    by_cases hc : c = '/'
    · subst hc
      rw [if_pos rfl]
      have hpos : 0 < (splitOnSlash cs).length :=
        List.length_pos.mpr (splitOnSlash_ne_nil cs)
      simp only [List.length_cons]
      constructor
      · intro _; exact List.mem_cons_self _ _
      · intro _; omega
    · rw [if_neg hc]
      have hmem : '/' ∈ c :: cs ↔ '/' ∈ cs := by
        constructor
        · intro hm
          rcases List.mem_cons.mp hm with h1 | h1
          · exact absurd h1.symm hc
          · exact h1
        · intro hm; exact List.mem_cons.mpr (Or.inr hm)
      cases h : splitOnSlash cs with
      | nil => exact absurd h (splitOnSlash_ne_nil cs)
      | cons p ps =>
        rw [hmem, ← ih, h]
        simp

theorem splitOnSlash_headD (key : Str) :
    (splitOnSlash key).headD [] = key.takeWhile (fun c => !(c == '/')) := by
  induction key with
  | nil => rfl
  | cons c cs ih =>
    simp only [splitOnSlash]
    by_cases hc : c = '/'
    · subst hc
      rw [if_pos rfl]
      simp [List.takeWhile_cons]
    · rw [if_neg hc]
      have ht : (c :: cs).takeWhile (fun d => !(d == '/'))
          = c :: cs.takeWhile (fun d => !(d == '/')) := by
        simp [List.takeWhile_cons, hc]
      cases h : splitOnSlash cs with
      | nil => exact absurd h (splitOnSlash_ne_nil cs)
      | cons p ps =>
        rw [ht]
        simp only [List.headD_cons]
        rw [← ih, h]
        simp

/-- C10: the organization id is exactly the part of the key before the
first slash when the key contains one, default_org only when the key has
no slash at all, and in particular the empty string (not default_org)
for a key beginning with a slash. -/
theorem claim10_org_id (key : Str) :
    (('/' ∈ key) →
      extract_org_id_from_path key = key.takeWhile (fun c => !(c == '/'))) ∧
    (('/' ∉ key) →
      extract_org_id_from_path key = "default_org".toList) ∧
    (∀ rest : Str, key = '/' :: rest →
      extract_org_id_from_path key = [] ∧
      extract_org_id_from_path key ≠ "default_org".toList) := by
  have hshow : extract_org_id_from_path key =
      (if (splitOnSlash key).length > 1 then (splitOnSlash key).headD []
       else "default_org".toList) := rfl
  refine ⟨fun h => ?_, fun h => ?_, fun rest hk => ?_⟩
  · rw [hshow, if_pos ((splitOnSlash_length key).mpr h)]
    exact splitOnSlash_headD key
  · rw [hshow, if_neg (fun hgt => h ((splitOnSlash_length key).mp hgt))]
  · subst hk
    have hmem : '/' ∈ ('/' :: rest) := List.mem_cons_self _ _
    have h2 : ('/' :: rest).takeWhile (fun c => !(c == '/')) = [] := by
      simp [List.takeWhile_cons]
    constructor
    · rw [hshow, if_pos ((splitOnSlash_length _).mpr hmem),
        splitOnSlash_headD, h2]
    · rw [hshow, if_pos ((splitOnSlash_length _).mpr hmem),
        splitOnSlash_headD, h2]
      decide

/-- C10 witness: a key with a separator yields its first segment and a
key starting with a slash yields the empty organization id. -/
theorem claim10_org_id_witness :
    extract_org_id_from_path (("org1/doc.pdf").toList) = ("org1").toList ∧
    extract_org_id_from_path (("/doc.pdf").toList) = [] := by
  constructor
  · have h := (claim10_org_id (("org1/doc.pdf").toList)).1 (by decide)
    rw [h]
    decide
  · exact ((claim10_org_id (("/doc.pdf").toList)).2.2 (("doc.pdf").toList)
      (by decide)).1

/-! Helper lemmas for the first-match extractor loop. -/

theorem firstCapture_none (pats : List RPat) (text : Str)
    (h : ∀ p ∈ pats, research p text = Option.none) :
    firstCapture pats text = Option.none := by
  induction pats with
  | nil => rfl
  | cons p ps ih =>
    simp only [firstCapture]
    rw [h p (List.mem_cons_self _ _)]
    exact ih (fun q hq => h q (List.mem_cons.mpr (Or.inr hq)))

theorem firstCapture_first (pats : List RPat) (text : Str) (i : Nat) (c : Str)
    (hi : i < pats.length)
    (hc : research (pats.getD i emptyPat) text = some c)
    (h0 : ∀ j, j < i → research (pats.getD j emptyPat) text = Option.none) :
    firstCapture pats text = some c := by
  induction pats generalizing i with
  | nil => simp at hi
  | cons p ps ih =>
    cases i with
    | zero =>
      simp only [List.getD_cons_zero] at hc
      simp only [firstCapture]
      rw [hc]
    | succ n =>
      have hp0 : research p text = Option.none := by
        have := h0 0 (Nat.succ_pos n)
        simpa using this
      simp only [firstCapture]
      rw [hp0]
      exact ih n (by simpa using hi) (by simpa using hc)
        (fun j hj => by simpa using h0 (j + 1) (Nat.succ_lt_succ hj))

/-- C4: each of the version, date and author extractors returns the
capture of the first pattern in its fixed list order that matches, later
patterns never influencing the result once an earlier one matches, and
absent when no pattern matches. -/
theorem claim4_extractor_short_circuit (text : Str) :
    ((∀ p ∈ versionPatterns, research p text = Option.none) →
      extract_version text = Option.none) ∧
    (∀ i c, i < versionPatterns.length →
      research (versionPatterns.getD i emptyPat) text = some c →
      (∀ j, j < i → research (versionPatterns.getD j emptyPat) text = Option.none) →
      extract_version text = some c) ∧
    ((∀ p ∈ datePatterns, research p text = Option.none) →
      extract_date text = Option.none) ∧
    (∀ i c, i < datePatterns.length →
      research (datePatterns.getD i emptyPat) text = some c →
      (∀ j, j < i → research (datePatterns.getD j emptyPat) text = Option.none) →
      extract_date text = some c) ∧
    ((∀ p ∈ authorPatterns, research p text = Option.none) →
      extract_author text = Option.none) ∧
    (∀ i c, i < authorPatterns.length →
      research (authorPatterns.getD i emptyPat) text = some c →
      (∀ j, j < i → research (authorPatterns.getD j emptyPat) text = Option.none) →
      extract_author text = some c) :=
  ⟨fun h => firstCapture_none versionPatterns text h,
   fun i c hi hc h0 => firstCapture_first versionPatterns text i c hi hc h0,
   fun h => firstCapture_none datePatterns text h,
   fun i c hi hc h0 => firstCapture_first datePatterns text i c hi hc h0,
   fun h => firstCapture_none authorPatterns text h,
   fun i c hi hc h0 => firstCapture_first authorPatterns text i c hi hc h0⟩

/-- C4 witness: the second version pattern wins once the first fails, the
first date pattern wins immediately, and a text matching no author
pattern yields no author. -/
theorem claim4_extractor_short_circuit_witness :
    extract_version (("v2.3").toList) = some (("2.3").toList) ∧
    extract_date (("Effective Date: 01/02/2024").toList)
      = some (("01/02/2024").toList) ∧
    extract_author (("hello").toList) = Option.none :=
  ⟨(claim4_extractor_short_circuit (("v2.3").toList)).2.1 1 (("2.3").toList)
      (by decide) (by decide) (by decide),
   (claim4_extractor_short_circuit (("Effective Date: 01/02/2024").toList)).2.2.2.1
      0 (("01/02/2024").toList) (by decide) (by decide) (by decide),
   (claim4_extractor_short_circuit (("hello").toList)).2.2.2.2.1 (by decide)⟩

/-- C9: parse_metadata always carries the version key, so the record
builder fallback default 1.0 is dead: the record version equals the
extractor result and is None whenever no version pattern matched. -/
theorem claim9_version_default_dead (text key checksum : Str)
    (page_count file_size : Nat) :
    ((completeMetadata text key checksum page_count file_size).version
      = optStr (extract_version text)) ∧
    (extract_version text = Option.none →
      (completeMetadata text key checksum page_count file_size).version
        = PyVal.none) := by
  constructor
  · rfl
  · intro h0
    show optStr (extract_version text) = PyVal.none
    rw [h0]
    rfl

/-- C9 witness: a record built from a text with no version pattern match
has version None, not 1.0. -/
theorem claim9_version_default_dead_witness :
    (completeMetadata (("hello").toList) (("k").toList) [] 1 0).version
      = PyVal.none :=
  (claim9_version_default_dead (("hello").toList) (("k").toList) [] 1 0).2
    (by decide)

/-! Helper lemmas for the coverage estimator. -/

theorem round_mono_q {a b : ℚ} (h : a ≤ b) : round a ≤ round b := by
  rw [round_eq, round_eq]
  exact Int.floor_le_floor (by linarith)

theorem round_q_10000 : round ((10000 : ℚ)) = 10000 := by
  norm_num [round_eq]

theorem round2_hundred : round2 (100 : ℚ) = 100 := by
  unfold round2
  have h1 : (100 : ℚ) * 100 = ((10000 : ℚ)) := by norm_num
  rw [h1, round_q_10000]
  norm_num

theorem round2_bounds {q : ℚ} (h0 : 0 ≤ q) (h1 : q ≤ 100) :
    0 ≤ round2 q ∧ round2 q ≤ 100 := by
  have hl : (0 : ℤ) ≤ round (q * 100) := by
    have h2 := round_mono_q (by linarith : (0 : ℚ) ≤ q * 100)
    simpa using h2
  have hu : round (q * 100) ≤ 10000 := by
    have h2 := round_mono_q (by linarith : q * 100 ≤ 10000)
    rw [round_q_10000] at h2
    exact h2
  constructor
  · unfold round2
    have : (0 : ℚ) ≤ ((round (q * 100) : ℤ) : ℚ) := by exact_mod_cast hl
    positivity
  · unfold round2
    rw [div_le_iff₀ (by norm_num : (0 : ℚ) < 100)]
    have : ((round (q * 100) : ℤ) : ℚ) ≤ ((10000 : ℤ) : ℚ) := by
      exact_mod_cast hu
    calc ((round (q * 100) : ℤ) : ℚ) ≤ ((10000 : ℤ) : ℚ) := this
      _ = 100 * 100 := by norm_num

/-- C5: coverage is 0 for zero pages, otherwise the clamped and rounded
word-density ratio; exact density yields 100, doubled density is clamped
to 100, and the result always lies between 0 and 100. -/
theorem claim5_ocr_coverage (text : Str) (pc : Nat) :
    (pc = 0 → calculate_ocr_coverage text pc = 0) ∧
    (pc ≠ 0 → calculate_ocr_coverage text pc =
      round2 (min (100 : ℚ)
        ((((pySplitWs text).length : ℚ) / ((pc : ℚ) * 300)) * 100))) ∧
    (0 ≤ calculate_ocr_coverage text pc) ∧
    (calculate_ocr_coverage text pc ≤ 100) ∧
    ((pySplitWs text).length = pc * 300 → pc ≠ 0 →
      calculate_ocr_coverage text pc = 100) ∧
    ((pySplitWs text).length = 2 * (pc * 300) → pc ≠ 0 →
      calculate_ocr_coverage text pc = 100) := by
  have hcast : (((pc * 300 : Nat)) : ℚ) = (pc : ℚ) * 300 := by
    push_cast
    ring
  have hbounds : 0 ≤ calculate_ocr_coverage text pc ∧
      calculate_ocr_coverage text pc ≤ 100 := by
    by_cases h : pc = 0
    · simp [calculate_ocr_coverage, h]
    · unfold calculate_ocr_coverage
      rw [if_neg h]
      have h0x : (0 : ℚ) ≤
          (((pySplitWs text).length : ℚ) / (((pc * 300 : Nat)) : ℚ)) * 100 := by
        positivity
      exact round2_bounds
        (le_min (by norm_num) h0x)
        (min_le_left _ _)
  refine ⟨fun h => by simp [calculate_ocr_coverage, h], fun h => ?_,
    hbounds.1, hbounds.2, fun hwc h => ?_, fun hwc h => ?_⟩
  · unfold calculate_ocr_coverage
    rw [if_neg h, hcast]
  · have hne : (((pc * 300 : Nat)) : ℚ) ≠ 0 := by
      rw [hcast]
      have : (0 : ℚ) < (pc : ℚ) := by exact_mod_cast Nat.pos_of_ne_zero h
      positivity
    unfold calculate_ocr_coverage
    rw [if_neg h, hwc, div_self hne]
    rw [one_mul, min_self]
    exact round2_hundred
  · have hne : (((pc * 300 : Nat)) : ℚ) ≠ 0 := by
      rw [hcast]
      have : (0 : ℚ) < (pc : ℚ) := by exact_mod_cast Nat.pos_of_ne_zero h
      positivity
    have h2 : (((2 * (pc * 300) : Nat)) : ℚ) = 2 * (((pc * 300 : Nat)) : ℚ) := by
      push_cast
      ring
    unfold calculate_ocr_coverage
    rw [if_neg h, hwc, h2, mul_div_assoc, div_self hne, mul_one]
    have h3 : min (100 : ℚ) (2 * 100) = 100 := by norm_num
    rw [h3]
    exact round2_hundred

set_option maxRecDepth 40000 in
/-- C5 witness: zero pages give coverage 0; exactly 300 and exactly 600
whitespace-separated words on one page both give coverage 100. -/
theorem claim5_ocr_coverage_witness :
    calculate_ocr_coverage [] 0 = 0 ∧
    calculate_ocr_coverage ((List.replicate 300 (("a ").toList)).flatten) 1
      = 100 ∧
    calculate_ocr_coverage ((List.replicate 600 (("a ").toList)).flatten) 1
      = 100 :=
  ⟨(claim5_ocr_coverage [] 0).1 rfl,
   (claim5_ocr_coverage ((List.replicate 300 (("a ").toList)).flatten) 1).2.2.2.2.1
     (by decide) (by decide),
   (claim5_ocr_coverage ((List.replicate 600 (("a ").toList)).flatten) 1).2.2.2.2.2
     (by decide) (by decide)⟩

/-! Helper lemmas for the polling loop. -/

theorem poll_timeout (status : Nat → JobStatus) :
    ∀ d a, 60 ≤ a + d →
      (∀ n, a ≤ n → n < 60 → status n = JobStatus.inProgress) →
      pollTextract status a = Except.error (("Textract job timeout").toList) := by
  intro d
  induction d with
  | zero =>
    intro a ha _
    unfold pollTextract
    rw [dif_neg (by omega)]
  | succ d ih =>
    intro a ha hall
    by_cases h60 : a < 60
    · have hs : status a = JobStatus.inProgress := hall a le_rfl h60
      unfold pollTextract
      rw [dif_pos h60, hs]
      exact ih (a + 1) (by omega) (fun n hn h2 => hall n (by omega) h2)
    · unfold pollTextract
      rw [dif_neg h60]

theorem poll_failed (status : Nat → JobStatus) :
    ∀ d a, a + d < 60 → status (a + d) = JobStatus.failed →
      (∀ m, a ≤ m → m < a + d → status m = JobStatus.inProgress) →
      pollTextract status a = Except.error (("Textract job failed").toList) := by
  intro d
  induction d with
  | zero =>
    intro a ha hf _
    rw [Nat.add_zero] at ha hf
    unfold pollTextract
    rw [dif_pos ha, hf]
  | succ d ih =>
    intro a ha hf hprev
    have h60 : a < 60 := by omega
    have hs : status a = JobStatus.inProgress := hprev a le_rfl (by omega)
    unfold pollTextract
    rw [dif_pos h60, hs]
    have hf2 : status (a + 1 + d) = JobStatus.failed := by
      rw [show a + 1 + d = a + (d + 1) from by omega]
      exact hf
    exact ih (a + 1) (by omega) hf2
      (fun m hm1 hm2 => hprev m (by omega) (by omega))

/-- C8: when the Textract job reports failure (after only in-progress
polls) or never succeeds within the 60 bounded attempts, processing of
the document ends in an error and performs no write: no metadata record
and no extracted text reach the stores. -/
theorem claim8_ocr_failure_no_writes (env : PipelineEnv)
    (h : (∃ n, n < 60 ∧ env.status n = JobStatus.failed ∧
            ∀ m, m < n → env.status m = JobStatus.inProgress) ∨
         (∀ n, n < 60 → env.status n = JobStatus.inProgress)) :
    (process_document env).1 = [] ∧ (process_document env).2.isSome = true := by
  have hp : ∃ e, pollTextract env.status 0 = Except.error e := by
    rcases h with ⟨n, hn, hf, hprev⟩ | hall
    · refine ⟨_, poll_failed env.status n 0 (by omega) ?_ ?_⟩
      · simpa using hf
      · intro m hm1 hm2
        exact hprev m (by omega)
    · exact ⟨_, poll_timeout env.status 60 0 (by omega)
        (fun m _ hm => hall m hm)⟩
  rcases hp with ⟨e, he⟩
  have hext : extract_text_from_pdf env = Except.error e := by
    unfold extract_text_from_pdf
    rw [he]
  constructor <;> simp [process_document, hext]

/-- C8 witness: with a job that stays in progress through every poll, the
run errors out and the write log is empty. -/
theorem claim8_ocr_failure_no_writes_witness :
    (process_document envAllPending).1 = [] ∧
    (process_document envAllPending).2.isSome = true :=
  claim8_ocr_failure_no_writes envAllPending (Or.inr (fun _ _ => rfl))

/-- C2 as stated expects jurisdiction VA for the scenario text, but the
text spells the state out as Virginia while detect_jurisdiction matches
only the two-letter code as a whole word, case-sensitively: the
jurisdiction entry is None, not VA. -/
theorem claim2_jurisdiction_counterexample :
    dictGet (parse_metadata c2Text c2Key) ("jurisdiction".toList) PyVal.none
        = PyVal.none ∧
    dictGet (parse_metadata c2Text c2Key) ("jurisdiction".toList) PyVal.none
        ≠ PyVal.str ("VA".toList) := by
  constructor
  · decide
  · decide

set_option maxRecDepth 8192 in
/-- C2 (amended): on the scenario text with any key, the parsed metadata
has doctype sop, hazard_types containing chemical, roles_involved
containing ehs, facility containing Building A, jurisdiction absent
(None, since the text names the state as Virginia and only whole-word
two-letter codes are detected), pii_present true, and version 2.1. -/
theorem claim2_scenario_amended :
    dictGet (parse_metadata c2Text c2Key) ("doctype".toList) PyVal.none
        = PyVal.str ("sop".toList) ∧
    pvListHas (dictGet (parse_metadata c2Text c2Key) ("hazard_types".toList)
        PyVal.none) ("chemical".toList) = true ∧
    pvListHas (dictGet (parse_metadata c2Text c2Key) ("roles_involved".toList)
        PyVal.none) ("ehs".toList) = true ∧
    pvListHas (dictGet (parse_metadata c2Text c2Key) ("facility".toList)
        PyVal.none) ("Building A".toList) = true ∧
    dictGet (parse_metadata c2Text c2Key) ("jurisdiction".toList) PyVal.none
        = PyVal.none ∧
    detect_pii c2Text = true ∧
    dictGet (parse_metadata c2Text c2Key) ("version".toList) PyVal.none
        = PyVal.str ("2.1".toList) := by
  refine ⟨?_, ?_, ?_, ?_, ?_, ?_, ?_⟩ <;> decide

/-- C3 as stated says the match list is deduplicated and then truncated
to the first 3 unique values, exactly 3 whenever more than 3 distinct
strings match; the source truncates to the first 3 occurrences and then
deduplicates: on a text whose matches are Building A, Building A,
Building B, Building C, Building D (four distinct values), the output
has only two unique values. -/
theorem claim3_truncation_counterexample :
    (facilityMatches facilityDupText).dedup.length = 4 ∧
    ((extract_facility facilityDupText).getD []).length = 2 := by
  constructor
  · decide
  · decide

/-- C3 (amended): extract_facility collects all matches of all patterns
in pattern order, truncates to the first 3 occurrences, deduplicates the
result, and returns it (absent when no pattern matched); the output never
has more than 3 unique values, though it may have fewer than 3 even when
more than 3 distinct strings match; on the fixture containing Building A
and Room 301, both appear. -/
theorem claim3_facility_amended :
    (∀ text : Str, extract_facility text =
      if (facilityMatches text).isEmpty then Option.none
      else some (((facilityMatches text).take 3).dedup)) ∧
    (∀ text : Str, ((extract_facility text).getD []).length ≤ 3) ∧
    ("Building A".toList) ∈ ((extract_facility facilityFixture).getD []) ∧
    ("Room 301".toList) ∈ ((extract_facility facilityFixture).getD []) := by
  refine ⟨fun text => rfl, fun text => ?_, by decide, by decide⟩
  by_cases h : (facilityMatches text).isEmpty
  · simp [extract_facility, h]
  · have h1 : ((facilityMatches text).take 3).dedup.length
        ≤ ((facilityMatches text).take 3).length :=
      ((facilityMatches text).take 3).dedup_sublist.length_le
    have h2 : ((facilityMatches text).take 3).length ≤ 3 := by
      simp [List.length_take]
    have h3 : extract_facility text = some (((facilityMatches text).take 3).dedup) := by
      simp [extract_facility, h]
    rw [h3, Option.getD_some]
    omega

/-- C6: detect_pii is the boolean disjunction of the three pattern
families, applied to the raw text; the three shaped fixtures are
detected and a text with none of the shapes is not. -/
theorem claim6_pii_families :
    (∀ text : Str, detect_pii text =
      (researchB phonePat text || researchB emailPat text ||
        researchB ssnPat text)) ∧
    detect_pii (("555-123-4567").toList) = true ∧
    detect_pii (("jane@example.com").toList) = true ∧
    detect_pii (("123-45-6789").toList) = true ∧
    detect_pii (("no sensitive data here").toList) = false := by
  refine ⟨fun text => ?_, by decide, by decide, by decide, by decide⟩
  simp [detect_pii, PII_PATTERNS, Bool.or_assoc]

end Respondr
